import Mathlib

/-!
Verification of the model-supervisor and request-proxy core of the
swift-model-server repository (src/server/model_manager.py,
src/server/utils.py, src/server/app.py).

The Python code is shallowly embedded as executable Lean functions:
* `ModelInfo`, `ModelManager` state, `add_model`, `add_model_from_config`,
  `remove_model`, `_get_next_port`, `get_model` from model_manager.py;
* the readiness-poll loop of `_start_model_server` as `pollLoop` over an
  explicit environment of per-cycle outcomes;
* `proxy_request` / `proxy_standard_request` / `proxy_streaming_request`
  from utils.py over an explicit backend outcome;
* the `chat_completions`, `completions` and delete-model route handlers
  from app.py.

Mutable-object aliasing (the registry dict holds references to `ModelInfo`
objects that the supervisor mutates in place) is modelled with an explicit
object heap keyed by a ghost creation serial, and every write to a record's
`status` field is logged in a ghost history so that per-record status
traces can be stated and proved.
-/

namespace SwiftModelServer

/-- The `quantization` dictionary stored on a record
(model_manager.py lines 102-106 / 163-167). -/
structure Quant where
  enabled : Bool
  method : String
  bits : Int
deriving DecidableEq, Repr

/-- Record type `ModelInfo` (model_manager.py lines 22-32).  `serial` is a ghost field,
not present in the source: it tags each created Python object so that a
record can be tracked across registry overwrites and removals. -/
structure ModelInfo where
  id : String
  name : String
  port : Nat
  url : String
  gpu_id : Nat
  status : String
  quantization : Quant
  pid : Option Nat
  start_time : Option Nat
  serial : Nat
deriving DecidableEq, Repr

/-- Python `os.path.basename`: the part of the path after the last slash
(empty when the path ends in a slash). -/
def basename (s : String) : String :=
  ⟨s.data.foldl (fun acc c => if c = '/' then [] else acc ++ [c]) []⟩

/-- The URL built for a record: `f"http://localhost:{port}"`. -/
def mkUrl (port : Nat) : String := "http://localhost:" ++ toString port

/-- Outcome of one iteration of the readiness-poll loop in
`_start_model_server` (model_manager.py lines 309-337): the process has
exited with a code, the HTTP probe returned status 200, or the probe
failed while the process is still alive. -/
inductive PollOutcome
  | exited (code : Int)
  | probeSuccess
  | probeFail
deriving DecidableEq, Repr

/-- Environment for one execution of `_start_model_server`: whether
`subprocess.Popen` succeeds, the pid and launch timestamp, the outcome the
world supplies for each poll cycle, and the content of the log file at the
time it is read back. -/
structure LaunchEnv where
  spawnOk : Bool
  pid : Nat
  startTime : Nat
  polls : Nat → PollOutcome
  log : String

/-- Result of the poll loop: `ready`, or `failed` carrying the diagnostic
payload read by the code (the exit code and the log-file content), or
`starting` when the bounded number of cycles is exhausted. -/
inductive LaunchOutcome
  | ready
  | failed (code : Int) (errorLog : String)
  | starting
deriving DecidableEq, Repr

/-- The poll loop body (model_manager.py lines 309-337): each cycle first
checks `process.poll()` and on exit reads the log and fails; otherwise
probes `/v1/models` and on HTTP 200 succeeds; otherwise continues.  An
empty cycle list means the 30 cycles are exhausted. -/
def pollLoop (log : String) : List PollOutcome → LaunchOutcome
  | [] => .starting
  | .exited c :: _ => .failed c log
  | .probeSuccess :: _ => .ready
  | .probeFail :: rest => pollLoop log rest

/-- Number of poll cycles actually executed. -/
def pollCycles : List PollOutcome → Nat
  | [] => 0
  | .exited _ :: _ => 1
  | .probeSuccess :: _ => 1
  | .probeFail :: rest => pollCycles rest + 1

/-- The `for _ in range(30)` bound: the cycle outcomes the loop can see. -/
def launchPolls (env : LaunchEnv) : List PollOutcome :=
  (List.range 30).map env.polls

/-- Result of `_start_model_server` on one `ModelInfo` object: the mutated
object, the ordered list of values assigned to its `status` field, and
whether an exception propagated out of the call. -/
structure LaunchResult where
  info : ModelInfo
  writes : List String
  raised : Bool
deriving Repr

/-- Method `_start_model_server` (model_manager.py lines 254-346).  On spawn
failure the outer handler sets `status = "failed"` and re-raises.  After a
successful spawn, `pid` and `start_time` are set and the poll loop runs:
probe success writes `"ready"` and returns; process exit writes `"failed"`
(line 320), raises, and the outer handler writes `"failed"` again (line
345) and re-raises; cycle exhaustion writes `"starting"` and returns. -/
def startModelServer (mi : ModelInfo) (env : LaunchEnv) : LaunchResult :=
  if env.spawnOk then
    let mi' := { mi with pid := some env.pid, start_time := some env.startTime }
    match pollLoop env.log (launchPolls env) with
    | .ready => ⟨{ mi' with status := "ready" }, ["ready"], false⟩
    | .failed _ _ => ⟨{ mi' with status := "failed" }, ["failed", "failed"], true⟩
    | .starting => ⟨{ mi' with status := "starting" }, ["starting"], false⟩
  else
    ⟨{ mi with status := "failed" }, ["failed"], true⟩

/-- State of a `ModelManager` (model_manager.py lines 45-57), together
with the ghost bookkeeping needed to state the claims:
* `entries` is the `self.models` dict in insertion order, mapping each
  `model_id` key to the serial of the `ModelInfo` object it references;
* `objs` is the heap of every `ModelInfo` object ever created, by serial;
* `next_port` is `self.next_port`;
* `pending` holds the serials whose `_start_model_server` background task
  was scheduled via `background_tasks.add_task` but has not yet run;
* `history` logs every value assigned to any record's `status` field as a
  `(serial, value)` pair, in program order (ghost);
* `reserved` logs every value returned by `_get_next_port` (ghost);
* `signals` logs every `os.kill(pid, sig)` delivery attempt (ghost). -/
structure MState where
  entries : List (String × Nat)
  objs : List (Nat × ModelInfo)
  next_port : Nat
  nextSerial : Nat
  pending : List Nat
  history : List (Nat × String)
  reserved : List Nat
  signals : List (Nat × Nat)
deriving Repr

/-- Constructor `ModelManager.__init__`: empty registry,
`next_port = server_config.get("starting_port", 8000)`. -/
def initState (base : Nat) : MState :=
  ⟨[], [], base, 0, [], [], [], []⟩

/-- Python dict assignment `d[k] = v`: replace in place when the key is
present (keeping its position), otherwise append. -/
def dictSet (m : List (String × Nat)) (k : String) (v : Nat) :
    List (String × Nat) :=
  if m.any (fun p => p.1 == k) then
    m.map (fun p => if p.1 == k then (k, v) else p)
  else m ++ [(k, v)]

/-- Python dict `d.pop(k)` (just the removal). -/
def dictPop (m : List (String × Nat)) (k : String) : List (String × Nat) :=
  m.filter (fun p => p.1 ≠ k)

/-- In-place mutation of the heap object with the given serial. -/
def objSet (os : List (Nat × ModelInfo)) (n : Nat) (mi : ModelInfo) :
    List (Nat × ModelInfo) :=
  os.map (fun p => if p.1 == n then (n, mi) else p)

/-- Method `_get_next_port` (model_manager.py lines 53-57): return `next_port`
and increment it.  The ghost `reserved` log records the returned value. -/
def getNextPort (s : MState) : Nat × MState :=
  (s.next_port,
   { s with next_port := s.next_port + 1,
            reserved := s.reserved ++ [s.next_port] })

/-- Method `get_model` (model_manager.py lines 72-83): direct id lookup in the
dict, then a scan over the values in insertion order for a `name` match. -/
def getModelInfo (s : MState) (key : String) : Option ModelInfo :=
  match (s.entries.lookup key).bind (fun n => s.objs.lookup n) with
  | some mi => some mi
  | none =>
      (s.entries.filterMap (fun e => s.objs.lookup e.2)).find?
        (fun mi => mi.name == key)

/-- Create a fresh record object, insert it into the registry dict (an
overwriting insert, as in `self.models[model_id] = model_info`), and log
its initial `"loading"` status write. -/
def insertRecord (s : MState) (id : String) (mi : ModelInfo) : MState :=
  { s with entries := dictSet s.entries id mi.serial,
           objs := s.objs ++ [(mi.serial, mi)],
           nextSerial := s.nextSerial + 1,
           history := s.history ++ [(mi.serial, "loading")] }

/-- Run `_start_model_server` synchronously on the object with the given
serial, writing the mutated object back to the heap and logging its status
writes. -/
def syncLaunch (s : MState) (serial : Nat) (mi : ModelInfo)
    (env : LaunchEnv) : LaunchResult × MState :=
  let r := startModelServer mi env
  (r, { s with objs := objSet s.objs serial r.info,
               history := s.history ++ r.writes.map (fun w => (serial, w)) })

/-- Arguments of `add_model` that affect the registry record.  The launch
parameters `max_model_len` and `memory_util` are only spliced into the
spawned command line and never touch the record or manager state, so they
are not modelled. -/
structure AddModelArgs where
  model_id : String
  port : Option Nat
  gpu_id : Nat
  quantize : Bool
  quant_method : String
  quant_bits : Int
deriving Repr

/-- Method `add_model` (model_manager.py lines 121-193).  `qres` is the outcome
of the external `_quantize_model` invocation (only consulted when
`quantize` is set; it can fail, which propagates after the port was
already assigned).  `bg` tells whether a `BackgroundTasks` object was
passed, in which case the launch is deferred (`env` is then unused here
and consumed by the later background-task step).  A duplicate `model_id`
raises `ValueError` before any other effect. -/
def add_model (s : MState) (a : AddModelArgs) (qres : Except String String)
    (bg : Bool) (env : LaunchEnv) : Except String ModelInfo × MState :=
  if (s.entries.lookup a.model_id).isSome then
    (.error ("Model " ++ a.model_id ++ " already exists"), s)
  else
    let ps := match a.port with
      | some p => (p, s)
      | none => getNextPort s
    match (if a.quantize then qres else .ok a.model_id) with
    | .error msg => (.error ("Failed to quantize model: " ++ msg), ps.2)
    | .ok _deployed =>
      let mi : ModelInfo :=
        { id := a.model_id, name := basename a.model_id, port := ps.1,
          url := mkUrl ps.1, gpu_id := a.gpu_id, status := "loading",
          quantization :=
            ⟨a.quantize, if a.quantize then a.quant_method else "none",
             if a.quantize then a.quant_bits else 0⟩,
          pid := none, start_time := none, serial := ps.2.nextSerial }
      let s₂ := insertRecord ps.2 a.model_id mi
      if bg then
        (.ok mi, { s₂ with pending := s₂.pending ++ [mi.serial] })
      else
        let rs := syncLaunch s₂ mi.serial mi env
        ((if rs.1.raised then .error "Model server process exited"
          else .ok rs.1.info), rs.2)

/-- A saved deployment descriptor as read from a JSON config file and
consumed by `add_model_from_config` (model_manager.py lines 85-119).
Absent keys are `none`. -/
structure ModelConfigFile where
  model_id : Option String
  port : Option Nat
  gpu_id : Option Nat
  quant_enabled : Option Bool
  quant_method : Option String
  quant_bits : Option Int
deriving Repr

/-- Method `add_model_from_config` (model_manager.py lines 85-119).  There is no
duplicate check: `self.models[model_id] = model_info` overwrites.  Python
evaluates the default argument of `dict.get` eagerly, so both line 98 and
line 99 call `self._get_next_port()` unconditionally; the record's `port`
uses the first draw and its `url` uses the second draw whenever the config
carries no explicit `"port"` key.  The launch then runs synchronously. -/
def add_model_from_config (s : MState) (cfg : ModelConfigFile)
    (env : LaunchEnv) : Except String ModelInfo × MState :=
  match cfg.model_id with
  | none => (.error "Missing model_id in configuration", s)
  | some id =>
    if id.isEmpty then (.error "Missing model_id in configuration", s)
    else
      let d₁ := getNextPort s
      let port := cfg.port.getD d₁.1
      let d₂ := getNextPort d₁.2
      let urlPort := cfg.port.getD d₂.1
      let mi : ModelInfo :=
        { id := id, name := basename id, port := port, url := mkUrl urlPort,
          gpu_id := cfg.gpu_id.getD 0, status := "loading",
          quantization :=
            ⟨cfg.quant_enabled.getD false, cfg.quant_method.getD "none",
             cfg.quant_bits.getD 4⟩,
          pid := none, start_time := none, serial := d₂.2.nextSerial }
      let s₂ := insertRecord d₂.2 id mi
      let rs := syncLaunch s₂ mi.serial mi env
      ((if rs.1.raised then .error "Model server process exited"
        else .ok rs.1.info), rs.2)

/-- Execution of a deferred `_start_model_server` background task for the
record object with the given serial.  FastAPI runs each scheduled task
exactly once, also when the record was meanwhile removed from the dict;
running a serial that is not pending is a no-op. -/
def run_launch (s : MState) (serial : Nat) (env : LaunchEnv) : MState :=
  if serial ∈ s.pending then
    match s.objs.lookup serial with
    | none => { s with pending := s.pending.erase serial }
    | some mi =>
      (syncLaunch { s with pending := s.pending.erase serial }
        serial mi env).2
  else s

/-- Environment for the termination wait loop of `remove_model`:
whether the first SIGTERM hits an already-vanished process
(`ProcessLookupError`), and after how many 1-second liveness checks the
process is observed gone (`none` = still alive after all 10 checks). -/
structure TermEnv where
  alreadyDead : Bool
  exitsAfter : Option Nat
deriving Repr

/-- Method `remove_model` (model_manager.py lines 382-429).  An unknown key
raises `KeyError` before any signal or mutation.  Otherwise: if the
record's `pid` is truthy (set and nonzero), SIGTERM is sent; if the
process never disappears within the 10 liveness checks, SIGKILL follows.
The entry is then popped from the dict (the heap object survives). -/
def remove_model (s : MState) (key : String) (tenv : TermEnv) :
    Except String (String × String × Nat) × MState :=
  match getModelInfo s key with
  | none => (.error ("Model " ++ key ++ " not found"), s)
  | some mi =>
    let sigs : List (Nat × Nat) :=
      match mi.pid with
      | none => []
      | some p =>
        if p = 0 then []
        else if tenv.alreadyDead then [(p, 15)]
        else (p, 15) ::
          (match tenv.exitsAfter with
           | some k => if 10 ≤ k then [(p, 9)] else []
           | none => [(p, 9)])
    (.ok (mi.id, mi.name, mi.port),
     { s with entries := dictPop s.entries mi.id,
              signals := s.signals ++ sigs })

/-- One externally triggered operation on the manager, with the
environment it runs against. -/
inductive Op
  | addModel (a : AddModelArgs) (qres : Except String String) (bg : Bool)
      (env : LaunchEnv)
  | runLaunch (serial : Nat) (env : LaunchEnv)
  | addFromConfig (cfg : ModelConfigFile) (env : LaunchEnv)
  | remove (key : String) (tenv : TermEnv)

/-- State transition of one operation. -/
def step (s : MState) : Op → MState
  | .addModel a q bg env => (add_model s a q bg env).2
  | .runLaunch n env => run_launch s n env
  | .addFromConfig cfg env => (add_model_from_config s cfg env).2
  | .remove k tenv => (remove_model s k tenv).2

/-- Run a sequence of operations. -/
def runOps (s : MState) : List Op → MState
  | [] => s
  | op :: rest => runOps (step s op) rest

/-- The ordered list of values the `status` field of the record object
with serial `n` has been assigned, as recorded in the ghost history. -/
def traceOf (h : List (Nat × String)) (n : Nat) : List String :=
  h.filterMap (fun p => if p.1 = n then some p.2 else none)

/-- The full status trace of the record object with serial `n` after
running `ops` from a fresh manager with the given port base. -/
def finalTrace (base : Nat) (ops : List Op) (n : Nat) : List String :=
  traceOf (runOps (initState base) ops).history n

/-- The possible per-launch status-write sequences of
`_start_model_server` on one record object. -/
def launchShape (ws : List String) : Prop :=
  ws = ["ready"] ∨ ws = ["failed", "failed"] ∨ ws = ["starting"] ∨
    ws = ["failed"]

/-- How one operation can touch the ghost history, the pending-task list
and the serial counter: not at all; a synchronous register-and-launch of a
fresh serial; a background registration of a fresh serial; the run of a
pending background launch; or the discard of a pending task whose object
is missing from the heap. -/
inductive HEffect (s s' : MState) : Prop
  | quiet (hh : s'.history = s.history) (hp : s'.pending = s.pending)
      (hn : s'.nextSerial = s.nextSerial)
  | sync (ws : List String) (hws : launchShape ws)
      (hh : s'.history = s.history ++
        (s.nextSerial, "loading") :: ws.map (fun w => (s.nextSerial, w)))
      (hp : s'.pending = s.pending) (hn : s'.nextSerial = s.nextSerial + 1)
  | bgReg (hh : s'.history = s.history ++ [(s.nextSerial, "loading")])
      (hp : s'.pending = s.pending ++ [s.nextSerial])
      (hn : s'.nextSerial = s.nextSerial + 1)
  | bgRun (n : Nat) (ws : List String) (hmem : n ∈ s.pending)
      (hws : launchShape ws)
      (hh : s'.history = s.history ++ ws.map (fun w => (n, w)))
      (hp : s'.pending = s.pending.erase n)
      (hn : s'.nextSerial = s.nextSerial)
  | bgDrop (n : Nat) (hmem : n ∈ s.pending) (hh : s'.history = s.history)
      (hp : s'.pending = s.pending.erase n)
      (hn : s'.nextSerial = s.nextSerial)

/-- A JSON value, as carried by request and response bodies. -/
inductive Jval
  | null
  | str (s : String)
  | num (n : Int)
  | obj (fields : List (String × Jval))
deriving Repr

/-- Lower-casing of a header name (`String.toLower`, written over the
character list so it computes by structural recursion). -/
def lowerName (s : String) : String := ⟨s.data.map Char.toLower⟩

/-- Case-insensitive header lookup, as on FastAPI's `request.headers`. -/
def headerLookup (hs : List (String × String)) (k : String) :
    Option String :=
  (hs.find? (fun p => lowerName p.1 == lowerName k)).map Prod.snd

/-- The outbound header dict built by `proxy_request` (utils.py lines
29-32): of the inbound headers, exactly `Content-Type` and
`Authorization` are copied over when present. -/
def forwardHeaders (hs : List (String × String)) :
    List (String × String) :=
  (match headerLookup hs "Content-Type" with
   | some v => [("Content-Type", v)]
   | none => []) ++
  (match headerLookup hs "Authorization" with
   | some v => [("Authorization", v)]
   | none => [])

/-- What the backend does with one outbound call: answer with an HTTP
response (status, declared content type, body as parsed JSON and as raw
text, and the chunk sequence when streamed), fail to connect or reset the
connection (`httpx.RequestError`), or trigger some other exception. -/
inductive BackendOutcome
  | response (status : Nat) (contentType : String) (bodyJson : Jval)
      (bodyText : String) (chunks : List String)
  | connectionError (msg : String)
  | otherError (msg : String)

/-- What consuming the `StreamingResponse` of `proxy_streaming_request`
(utils.py lines 84-96) does: yield the backend's chunks in order, or raise
the `HTTPStatusError` from `raise_for_status`, or raise the original
`httpx.RequestError` or other exception.  These raises happen while the
response streams, after `proxy_request` has already returned. -/
inductive StreamOutcome
  | chunks (cs : List String)
  | raiseStatus (status : Nat)
  | raiseRequestError (msg : String)
  | raiseOther (msg : String)

/-- The value `proxy_request` produces for the caller. -/
inductive ProxyResult
  | jsonResponse (status : Nat) (content : Jval)
  | streaming (consume : StreamOutcome)

/-- Predicate for `httpx.Response.raise_for_status`, which raises unless the status is 2xx. -/
def isSuccess (status : Nat) : Prop := 200 ≤ status ∧ status < 300

instance (status : Nat) : Decidable (isSuccess status) :=
  inferInstanceAs (Decidable (_ ∧ _))

/-- The backend's response body as a value: the parsed JSON when the
backend declared `application/json`, the raw text otherwise. -/
def backendBodyVal (contentType : String) (bodyJson : Jval)
    (bodyText : String) : Jval :=
  if contentType = "application/json" then bodyJson else .str bodyText

/-- Function `proxy_request` (utils.py lines 13-66) for a given stream flag and
backend outcome.  Non-streaming: `proxy_standard_request` posts, calls
`raise_for_status`, and re-emits status and JSON body; the handlers map
`HTTPStatusError` to a `JSONResponse` with the backend's status and either
its JSON body (when the content type is exactly `application/json`) or
`{"error": <text>}`; `RequestError` maps to 503 and any other exception to
500.  Streaming: a `StreamingResponse` is returned immediately; the
outbound call, `raise_for_status`, and any exception happen later, inside
the generator, outside the `try` of `proxy_request`. -/
def proxy_request (stream : Bool) (o : BackendOutcome) : ProxyResult :=
  if stream then
    .streaming
      (match o with
       | .response st _ _ _ cs =>
         if isSuccess st then .chunks cs else .raiseStatus st
       | .connectionError m => .raiseRequestError m
       | .otherError m => .raiseOther m)
  else
    match o with
    | .response st ct bj bt _ =>
      if isSuccess st then .jsonResponse st bj
      else
        .jsonResponse st
          (if ct = "application/json" then bj
           else .obj [("error", .str bt)])
    | .connectionError m =>
      .jsonResponse 503
        (.obj [("error", .str ("Model server unavailable: " ++ m))])
    | .otherError m =>
      .jsonResponse 500
        (.obj [("error", .str ("Internal server error: " ++ m))])

/-- Result of one of the two inference route handlers in app.py: an
`HTTPException` with a status code and detail, or the value returned by
`proxy_request` for the resolved record, together with the outbound
headers it forwards. -/
inductive RouteResponse
  | httpError (status : Nat) (detail : String)
  | proxiedTo (url : String) (endpoint : String)
      (headers : List (String × String)) (result : ProxyResult)

/-- Check `body.get("model")` followed by `if not model_id`: absent or empty. -/
def modelKeyMissing : Option String → Bool
  | none => true
  | some s => s.isEmpty

/-- Shared body of `chat_completions` (app.py lines 177-206) and
`completions` (lines 208-237): 400 when the body names no model, 404 when
`get_model` resolves nothing, 503 when the resolved record's status is not
`"ready"`, otherwise forward via `proxy_request`.  The second component
counts the outbound network calls the handler issues. -/
def handleInference (endpoint : String) (s : MState)
    (modelField : Option String) (stream : Bool) (be : BackendOutcome)
    (hs : List (String × String)) : RouteResponse × Nat :=
  if modelKeyMissing modelField then
    (.httpError 400 "Model ID is required", 0)
  else
    let key := modelField.getD ""
    match getModelInfo s key with
    | none => (.httpError 404 ("Model " ++ key ++ " not found"), 0)
    | some mi =>
      if mi.status ≠ "ready" then
        (.httpError 503
          ("Model " ++ key ++ " is not ready (status: " ++ mi.status ++ ")"),
         0)
      else
        (.proxiedTo mi.url endpoint (forwardHeaders hs)
           (proxy_request stream be), 1)

/-- Route `POST /v1/chat/completions` (app.py lines 177-206). -/
def chat_completions (s : MState) (modelField : Option String)
    (stream : Bool) (be : BackendOutcome) (hs : List (String × String)) :
    RouteResponse × Nat :=
  handleInference "chat/completions" s modelField stream be hs

/-- Route `POST /v1/completions` (app.py lines 208-237). -/
def completions (s : MState) (modelField : Option String) (stream : Bool)
    (be : BackendOutcome) (hs : List (String × String)) :
    RouteResponse × Nat :=
  handleInference "completions" s modelField stream be hs

/-- Route `DELETE /v1/models/<model_id>` (app.py lines 161-175): the manager's
`KeyError` becomes an `HTTPException` 404. -/
def removeModelEndpoint (s : MState) (key : String) (tenv : TermEnv) :
    (Except (Nat × String) (String × String × Nat)) × MState :=
  match remove_model s key tenv with
  | (.ok r, s₁) => (.ok r, s₁)
  | (.error _, s₁) =>
    (.error (404, "Model " ++ key ++ " not found"), s₁)

/-- Shape of a complete per-record status trace: nothing yet, only the
initial `"loading"`, or `"loading"` followed by the writes of the single
`_start_model_server` run this record object receives. -/
def traceOK (t : List String) : Prop :=
  t = [] ∨ t = ["loading"] ∨ ∃ ws, launchShape ws ∧ t = "loading" :: ws

/-- The status-change edges allowed by the spec state machine (§4.2) for
the `status` field itself; `stopped` is record removal, not a field
write. -/
def allowedEdgePairs : List (String × String) :=
  [("loading", "ready"), ("loading", "starting"), ("loading", "failed"),
   ("starting", "ready"), ("starting", "failed")]

/-- Registry invariant tying the ghost history to the serial counter and
the pending background launches. -/
structure Inv (s : MState) : Prop where
  fresh : ∀ n, s.nextSerial ≤ n → traceOf s.history n = []
  pendTrace : ∀ n ∈ s.pending, traceOf s.history n = ["loading"]
  pendLt : ∀ n ∈ s.pending, n < s.nextSerial
  pendNodup : s.pending.Nodup
  trOK : ∀ n, traceOK (traceOf s.history n)

/-- Concrete registration arguments used by witnesses: a plain
`add_model("org/modelA")` with no explicit port and no quantization. -/
def argsA : AddModelArgs := ⟨"org/modelA", none, 0, false, "awq", 4⟩

/-- Concrete config-file descriptor with no explicit `"port"` key. -/
def cfgA : ModelConfigFile := ⟨some "org/modelA", none, none, none, none, none⟩

/-- Launch environment in which every readiness probe fails while the
process stays alive. -/
def envAllFail : LaunchEnv := ⟨true, 42, 100, fun _ => .probeFail, "boot log"⟩

/-- Launch environment in which the first 30 probes fail and every probe
from the 31st cycle on would succeed. -/
def envLate : LaunchEnv :=
  ⟨true, 42, 100, fun k => if k < 30 then .probeFail else .probeSuccess,
   "boot log"⟩

/-- Launch environment in which the first probe succeeds. -/
def envOk : LaunchEnv := ⟨true, 7, 50, fun _ => .probeSuccess, ""⟩

/-- Launch environment in which the process exits with code 1 before any
successful probe. -/
def envExit : LaunchEnv := ⟨true, 9, 60, fun _ => .exited 1, "crash log"⟩

/-- A concrete freshly created record object. -/
def miEx : ModelInfo :=
  ⟨"org/modelA", "modelA", 8000, mkUrl 8000, 0, "loading",
   ⟨false, "none", 0⟩, none, none, 0⟩

/-- Manager state after one `add_model_from_config` call for `cfgA` on a
fresh manager (record registered at port 8000, probe succeeded). -/
def c3s1 : MState := (add_model_from_config (initState 8000) cfgA envOk).2

/-- Result of a second `add_model_from_config` call for the same
`model_id`. -/
def c3r2 : Except String ModelInfo × MState :=
  add_model_from_config c3s1 cfgA envOk

/-- Whether an `Except` is a success. -/
def isOkE {ε α : Type} : Except ε α → Bool
  | .ok _ => true
  | .error _ => false

/-- Manager state holding one record for `"org/modelA"` whose launch
timed out, leaving it in status `"starting"`. -/
def c6sStarting : MState :=
  (add_model (initState 8000) argsA (.ok "org/modelA") false envAllFail).2

/-- The record object stored in `c6sStarting`. -/
def miStarting : ModelInfo :=
  ⟨"org/modelA", "modelA", 8000, mkUrl 8000, 0, "starting",
   ⟨false, "none", 0⟩, some 42, some 100, 0⟩

/-- The record object stored in `c3s1` (launched via config, `"ready"`;
note its URL names port 8001 while its port field is 8000). -/
def miReady : ModelInfo :=
  ⟨"org/modelA", "modelA", 8000, mkUrl 8001, 0, "ready",
   ⟨false, "none", 4⟩, some 7, some 50, 0⟩

/-- Concrete config-file descriptor that does carry an explicit
`"port"` key. -/
def cfgP : ModelConfigFile :=
  ⟨some "org/modelB", some 9100, none, none, none, none⟩

theorem traceOf_append (h h' : List (Nat × String)) (n : Nat) :
    traceOf (h ++ h') n = traceOf h n ++ traceOf h' n :=
  List.filterMap_append ..

theorem traceOf_map (ws : List String) (m n : Nat) :
    traceOf (ws.map (fun w => (m, w))) n = if m = n then ws else [] := by
  induction ws with
  | nil => simp [traceOf]
  | cons w ws ih =>
    simp only [traceOf, List.map_cons, List.filterMap_cons] at *
    by_cases h : m = n
    · simp only [h, if_true] at ih ⊢
      simp [ih]
    · simp only [h, if_false] at ih ⊢
      simp [ih, h]

theorem traceOf_single (m n : Nat) (w : String) :
    traceOf [(m, w)] n = if m = n then [w] else [] := by
  by_cases h : m = n <;> simp [traceOf, h]

theorem startModelServer_writes_shape (mi : ModelInfo) (env : LaunchEnv) :
    launchShape (startModelServer mi env).writes := by
  unfold startModelServer launchShape
  split
  · split <;> simp
  · simp

theorem heffect_sync_insert (s₀ s : MState) (id : String) (mi : ModelInfo)
    (env : LaunchEnv) (hh : s.history = s₀.history)
    (hp : s.pending = s₀.pending) (hn : s.nextSerial = s₀.nextSerial)
    (hser : mi.serial = s.nextSerial) :
    HEffect s₀ (syncLaunch (insertRecord s id mi) mi.serial mi env).2 :=
  .sync (startModelServer mi env).writes (startModelServer_writes_shape mi env)
    (by simp [insertRecord, syncLaunch, hh, hn, hser])
    (by simp [insertRecord, syncLaunch, hp])
    (by simp [insertRecord, syncLaunch, hn])

theorem heffect_bg_insert (s₀ s : MState) (id : String) (mi : ModelInfo)
    (hh : s.history = s₀.history) (hp : s.pending = s₀.pending)
    (hn : s.nextSerial = s₀.nextSerial) (hser : mi.serial = s.nextSerial) :
    HEffect s₀
      { insertRecord s id mi with
          pending := (insertRecord s id mi).pending ++ [mi.serial] } :=
  .bgReg (by simp [insertRecord, hh, hn, hser])
    (by simp [insertRecord, hp, hn, hser])
    (by simp [insertRecord, hn])

theorem step_heffect (s : MState) (op : Op) : HEffect s (step s op) := by
  cases op with
  | addModel a q bg env =>
    show HEffect s (add_model s a q bg env).2
    unfold add_model
    split
    · exact .quiet rfl rfl rfl
    · cases hport : a.port with
      | some p =>
        simp only [hport]
        split
        · exact .quiet rfl rfl rfl
        · cases bg with
          | true => exact heffect_bg_insert s s _ _ rfl rfl rfl rfl
          | false => exact heffect_sync_insert s s _ _ env rfl rfl rfl rfl
      | none =>
        simp only [hport]
        split
        · exact .quiet rfl rfl rfl
        · cases bg with
          | true =>
            exact heffect_bg_insert s (getNextPort s).2 _ _ rfl rfl rfl rfl
          | false =>
            exact heffect_sync_insert s (getNextPort s).2 _ _ env rfl rfl
              rfl rfl
  | runLaunch n env =>
    show HEffect s (run_launch s n env)
    unfold run_launch
    split
    · split
      · exact .bgDrop n (by assumption) rfl rfl rfl
      · next mi _ =>
        exact .bgRun n (startModelServer mi env).writes (by assumption)
          (startModelServer_writes_shape mi env) (by simp [syncLaunch]) rfl
          rfl
    · exact .quiet rfl rfl rfl
  | addFromConfig cfg env =>
    show HEffect s (add_model_from_config s cfg env).2
    unfold add_model_from_config
    split
    · exact .quiet rfl rfl rfl
    · split
      · exact .quiet rfl rfl rfl
      · exact heffect_sync_insert s (getNextPort (getNextPort s).2).2 _ _
          env rfl rfl rfl rfl
  | remove k tenv =>
    show HEffect s (remove_model s k tenv).2
    unfold remove_model
    split
    · exact .quiet rfl rfl rfl
    · exact .quiet rfl rfl rfl

theorem traceOf_cons_append (h : List (Nat × String)) (m n : Nat)
    (w : String) (ws : List String) :
    traceOf (h ++ (m, w) :: ws.map (fun v => (m, v))) n =
      traceOf h n ++ (if m = n then w :: ws else []) := by
  rw [show (m, w) :: ws.map (fun v => (m, v)) =
        [(m, w)] ++ ws.map (fun v => (m, v)) from rfl,
      ← List.append_assoc, traceOf_append, traceOf_append, traceOf_single,
      traceOf_map, List.append_assoc]
  by_cases hmn : m = n <;> simp [hmn]

theorem heffect_inv (s s' : MState) (hi : Inv s) (he : HEffect s s') :
    Inv s' := by
  cases he with
  | quiet hh hp hn =>
    exact ⟨fun n h => by rw [hh]; exact hi.fresh n (hn ▸ h),
      fun n h => by rw [hh]; exact hi.pendTrace n (hp ▸ h),
      fun n h => hn ▸ hi.pendLt n (hp ▸ h), hp ▸ hi.pendNodup,
      fun n => by rw [hh]; exact hi.trOK n⟩
  | sync ws hws hh hp hn =>
    refine ⟨?_, ?_, ?_, hp ▸ hi.pendNodup, ?_⟩
    · intro n h
      rw [hn] at h
      rw [hh, traceOf_cons_append, if_neg (by omega),
        hi.fresh n (by omega), List.append_nil]
    · intro n h
      have hlt := hi.pendLt n (hp ▸ h)
      rw [hh, traceOf_cons_append, if_neg (by omega), List.append_nil]
      exact hi.pendTrace n (hp ▸ h)
    · intro n h
      have := hi.pendLt n (hp ▸ h); omega
    · intro n
      rw [hh, traceOf_cons_append]
      by_cases hmn : s.nextSerial = n
      · rw [if_pos hmn, hi.fresh n (by omega), List.nil_append]
        exact .inr (.inr ⟨ws, hws, rfl⟩)
      · rw [if_neg hmn, List.append_nil]; exact hi.trOK n
  | bgReg hh hp hn =>
    refine ⟨?_, ?_, ?_, ?_, ?_⟩
    · intro n h
      rw [hn] at h
      rw [hh, traceOf_append, traceOf_single, if_neg (by omega),
        hi.fresh n (by omega), List.append_nil]
    · intro n h
      rw [hp, List.mem_append, List.mem_singleton] at h
      rcases h with h | h
      · have hlt := hi.pendLt n h
        rw [hh, traceOf_append, traceOf_single, if_neg (by omega),
          List.append_nil]
        exact hi.pendTrace n h
      · subst h
        rw [hh, traceOf_append, traceOf_single, if_pos rfl,
          hi.fresh _ le_rfl, List.nil_append]
    · intro n h
      rw [hp, List.mem_append, List.mem_singleton] at h
      rcases h with h | h
      · have := hi.pendLt n h; omega
      · omega
    · rw [hp]
      refine List.Nodup.append hi.pendNodup (List.nodup_singleton _) ?_
      intro n h1 h2
      rw [List.mem_singleton] at h2
      subst h2
      exact absurd (hi.pendLt _ h1) (lt_irrefl _)
    · intro n
      rw [hh, traceOf_append, traceOf_single]
      by_cases hmn : s.nextSerial = n
      · rw [if_pos hmn, hi.fresh n (by omega), List.nil_append]
        exact .inr (.inl rfl)
      · rw [if_neg hmn, List.append_nil]; exact hi.trOK n
  | bgRun m ws hmem hws hh hp hn =>
    have hmlt := hi.pendLt m hmem
    refine ⟨?_, ?_, ?_, hp ▸ hi.pendNodup.erase _, ?_⟩
    · intro n h
      rw [hn] at h
      rw [hh, traceOf_append, traceOf_map, if_neg (by omega),
        hi.fresh n h, List.append_nil]
    · intro n h
      rw [hp] at h
      have hne : n ≠ m :=
        ((List.Nodup.mem_erase_iff hi.pendNodup).1 h).1
      rw [hh, traceOf_append, traceOf_map, if_neg (fun e => hne e.symm),
        List.append_nil]
      exact hi.pendTrace n (List.mem_of_mem_erase h)
    · intro n h
      rw [hn]
      exact hi.pendLt n (List.mem_of_mem_erase (hp ▸ h))
    · intro n
      rw [hh, traceOf_append, traceOf_map]
      by_cases hmn : m = n
      · subst hmn
        rw [if_pos rfl, hi.pendTrace m hmem]
        exact .inr (.inr ⟨ws, hws, rfl⟩)
      · rw [if_neg hmn, List.append_nil]; exact hi.trOK n
  | bgDrop m hmem hh hp hn =>
    exact ⟨fun n h => by rw [hh]; exact hi.fresh n (hn ▸ h),
      fun n h => by
        rw [hh]; exact hi.pendTrace n (List.mem_of_mem_erase (hp ▸ h)),
      fun n h => hn ▸ hi.pendLt n (List.mem_of_mem_erase (hp ▸ h)),
      hp ▸ hi.pendNodup.erase _,
      fun n => by rw [hh]; exact hi.trOK n⟩

theorem initState_inv (base : Nat) : Inv (initState base) :=
  ⟨fun _ _ => rfl, fun n h => absurd h (List.not_mem_nil n),
   fun n h => absurd h (List.not_mem_nil n), List.nodup_nil,
   fun _ => .inl rfl⟩

theorem runOps_inv_of (s : MState) (hi : Inv s) (ops : List Op) :
    Inv (runOps s ops) := by
  induction ops generalizing s with
  | nil => exact hi
  | cons op rest ih =>
    exact ih (step s op) (heffect_inv s (step s op) hi (step_heffect s op))

theorem runOps_inv (base : Nat) (ops : List Op) :
    Inv (runOps (initState base) ops) :=
  runOps_inv_of _ (initState_inv base) ops

theorem heffect_stable (s s' : MState) (n : Nat)
    (he : HEffect s s') (hlt : n < s.nextSerial) (hnp : n ∉ s.pending) :
    traceOf s'.history n = traceOf s.history n ∧ n < s'.nextSerial ∧
      n ∉ s'.pending := by
  cases he with
  | quiet hh hp hn => exact ⟨by rw [hh], by omega, hp ▸ hnp⟩
  | sync ws hws hh hp hn =>
    exact ⟨by rw [hh, traceOf_cons_append, if_neg (by omega),
      List.append_nil], by omega, hp ▸ hnp⟩
  | bgReg hh hp hn =>
    refine ⟨by rw [hh, traceOf_append, traceOf_single, if_neg (by omega),
      List.append_nil], by omega, ?_⟩
    rw [hp, List.mem_append, List.mem_singleton]
    rintro (h | h)
    · exact hnp h
    · omega
  | bgRun m ws hmem hws hh hp hn =>
    have hne : m ≠ n := fun e => hnp (e ▸ hmem)
    exact ⟨by rw [hh, traceOf_append, traceOf_map, if_neg hne,
      List.append_nil], by omega,
      fun h => hnp (List.mem_of_mem_erase (hp ▸ h))⟩
  | bgDrop m hmem hh hp hn =>
    exact ⟨by rw [hh], by omega,
      fun h => hnp (List.mem_of_mem_erase (hp ▸ h))⟩

theorem runOps_stable (s : MState) (more : List Op) (n : Nat)
    (hlt : n < s.nextSerial) (hnp : n ∉ s.pending) :
    traceOf (runOps s more).history n = traceOf s.history n := by
  induction more generalizing s with
  | nil => rfl
  | cons op rest ih =>
    obtain ⟨h1, h2, h3⟩ :=
      heffect_stable s (step s op) n (step_heffect s op) hlt hnp
    rw [runOps, ih (step s op) h2 h3, h1]

theorem runOps_append (s : MState) (ops more : List Op) :
    runOps s (ops ++ more) = runOps (runOps s ops) more := by
  induction ops generalizing s with
  | nil => rfl
  | cons op rest ih => rw [List.cons_append, runOps, runOps, ih]

theorem traceOK_edges (t : List String) (h : traceOK t) :
    (((t.destutter (· ≠ ·)).zip (t.destutter (· ≠ ·)).tail).all
        (fun p => allowedEdgePairs.contains p)) = true ∧
    ("ready", "loading") ∉ t.zip t.tail ∧
    ("failed", "ready") ∉ t.zip t.tail := by
  rcases h with h | h | ⟨ws, hws, h⟩
  · subst h; decide
  · subst h; decide
  · rcases hws with hw | hw | hw | hw <;> (subst hw; subst h; decide)

theorem pollLoop_all_fail (log : String) (l : List PollOutcome)
    (h : ∀ p ∈ l, p = .probeFail) : pollLoop log l = .starting := by
  induction l with
  | nil => rfl
  | cons p rest ih =>
    rw [h p (List.mem_cons_self p rest)]
    exact ih (fun q hq => h q (List.mem_cons_of_mem p hq))

/-- C1: for every deployment record object, the `status` field only ever
changes along the spec's state-machine edges; in particular no reachable
sequence of register, launch-poll and remove operations makes any record's
status trace contain a `ready → loading` or `failed → ready` step.
(`stopped` is realised as removal of the registry entry, not as a write to
the `status` field, so it does not appear in the trace.) -/
theorem c1_status_transitions_follow_edges (base : Nat) (ops : List Op)
    (n : Nat) :
    (((finalTrace base ops n).destutter (· ≠ ·)).zip
        ((finalTrace base ops n).destutter (· ≠ ·)).tail).all
      (fun p => allowedEdgePairs.contains p) = true ∧
    ("ready", "loading") ∉
      (finalTrace base ops n).zip (finalTrace base ops n).tail ∧
    ("failed", "ready") ∉
      (finalTrace base ops n).zip (finalTrace base ops n).tail :=
  traceOK_edges _ ((runOps_inv base ops).trOK n)

/-- C2 counterexample: with an environment in which every probe from the
31st cycle on would succeed, the synchronous launch still returns with the
record in `starting`, and no pending background work remains, so the
record cannot later resolve to `ready`: polling does not continue after
the bounded 30 cycles. -/
theorem c2_counterexample :
    envLate.polls 30 = PollOutcome.probeSuccess ∧
    finalTrace 8000 [.addModel argsA (.ok "org/modelA") false envLate] 0 =
      ["loading", "starting"] ∧
    (runOps (initState 8000)
        [.addModel argsA (.ok "org/modelA") false envLate]).pending = [] := by
  refine ⟨rfl, ?_, rfl⟩
  decide

/-- C2 amended: if the 30 poll cycles elapse with neither a successful
probe nor a process exit, the record's status is set to `starting` and
control returns to the caller — but polling does NOT continue in the
background: a record whose trace ends in `starting` keeps exactly that
trace under every further sequence of operations, so `starting` is
terminal for the launch operation until the record is removed. -/
theorem c2_starting_is_terminal :
    (∀ (mi : ModelInfo) (env : LaunchEnv), env.spawnOk = true →
        (∀ k, k < 30 → env.polls k = .probeFail) →
        (startModelServer mi env).info.status = "starting" ∧
        (startModelServer mi env).writes = ["starting"]) ∧
    (∀ (base : Nat) (ops more : List Op) (n : Nat),
        finalTrace base ops n = ["loading", "starting"] →
        finalTrace base (ops ++ more) n = ["loading", "starting"]) := by
  constructor
  · intro mi env hs hp
    have hl : pollLoop env.log (launchPolls env) = .starting := by
      apply pollLoop_all_fail
      intro p hp2
      rw [launchPolls] at hp2
      obtain ⟨k, hk, rfl⟩ := List.mem_map.1 hp2
      exact hp k (List.mem_range.1 hk)
    simp [startModelServer, hs, hl]
  · intro base ops more n htr
    have hinv := runOps_inv base ops
    have hlt : n < (runOps (initState base) ops).nextSerial := by
      by_contra hge
      push_neg at hge
      have h0 := hinv.fresh n hge
      rw [finalTrace] at htr
      rw [h0] at htr
      exact List.noConfusion htr
    have hnp : n ∉ (runOps (initState base) ops).pending := by
      intro hmem
      have h0 := hinv.pendTrace n hmem
      rw [finalTrace] at htr
      rw [h0] at htr
      simp at htr
    rw [finalTrace, runOps_append,
      runOps_stable (runOps (initState base) ops) more n hlt hnp]
    exact htr

/-- Witness for the amended C2 at concrete inputs: a launch whose probes
all fail ends in `starting`, and a trace `["loading", "starting"]` is
unchanged by a further remove operation. -/
theorem c2_starting_is_terminal_witness :
    (startModelServer miEx envAllFail).info.status = "starting" ∧
    finalTrace 8000
      ([.addModel argsA (.ok "org/modelA") false envAllFail] ++
        [.remove "other" ⟨false, none⟩]) 0 = ["loading", "starting"] :=
  ⟨(c2_starting_is_terminal.1 miEx envAllFail rfl (fun _ _ => rfl)).1,
   c2_starting_is_terminal.2 8000
     [.addModel argsA (.ok "org/modelA") false envAllFail]
     [.remove "other" ⟨false, none⟩] 0 (by decide)⟩

/-- C3 counterexample: registering the identity `"org/modelA"` twice in
sequence through `add_model_from_config` does not fail on the second call
— the second call succeeds and replaces the first record (its port moves
from 8000 to 8002), because `add_model_from_config` performs no duplicate
check before `self.models[model_id] = model_info`. -/
theorem c3_counterexample :
    isOkE c3r2.1 = true ∧
    (getModelInfo c3s1 "org/modelA").map ModelInfo.port = some 8000 ∧
    (getModelInfo c3r2.2 "org/modelA").map ModelInfo.port = some 8002 ∧
    getModelInfo c3r2.2 "org/modelA" ≠ getModelInfo c3s1 "org/modelA" := by
  decide

/-- C3 amended: registering twice in sequence with the same identity
through `add_model` makes the second call fail with the duplicate-identity
error `ValueError("Model <id> already exists")` and leaves the manager
state — registry contents, every record's port and status, and the port
allocator — completely unchanged; `add_model_from_config`, by contrast,
performs no duplicate check and overwrites the existing record. -/
theorem c3_duplicate_add_model_rejected (s : MState) (a : AddModelArgs)
    (q : Except String String) (bg : Bool) (env : LaunchEnv)
    (h : (s.entries.lookup a.model_id).isSome = true) :
    add_model s a q bg env =
      (.error ("Model " ++ a.model_id ++ " already exists"), s) := by
  unfold add_model
  rw [if_pos h]

/-- Witness for the amended C3: the state `c3s1` holds `"org/modelA"`, and
a second `add_model` call for it is rejected with the state returned
untouched. -/
theorem c3_duplicate_add_model_rejected_witness :
    (c3s1.entries.lookup "org/modelA").isSome = true ∧
    add_model c3s1 argsA (.ok "org/modelA") false envOk =
      (.error ("Model " ++ "org/modelA" ++ " already exists"), c3s1) :=
  ⟨by decide,
   c3_duplicate_add_model_rejected c3s1 argsA (.ok "org/modelA") false
     envOk (by decide)⟩

theorem pollLoop_failed_log (log : String) (l : List PollOutcome)
    (c : Int) (lg : String) (h : pollLoop log l = .failed c lg) :
    lg = log := by
  induction l with
  | nil => exact absurd h (by simp [pollLoop])
  | cons p rest ih =>
    cases p with
    | exited c0 =>
      rw [pollLoop] at h
      cases h
      rfl
    | probeSuccess =>
      rw [pollLoop] at h
      exact absurd h (by simp)
    | probeFail => exact ih h

/-- C4: each readiness poll cycle has exactly three outcomes — a
successful probe yields `ready` and stops after that cycle; a process exit
yields `failed` carrying the diagnostic payload the code reads (the exit
code together with the captured log output, whose tail it therefore
contains) and stops after that cycle; a failed probe with the process
still alive continues to the next cycle.  The resulting record status is
`"ready"` respectively `"failed"`. -/
theorem c4_poll_cycle_trichotomy :
    (∀ (log : String) (rest : List PollOutcome),
        pollLoop log (.probeSuccess :: rest) = .ready ∧
        pollCycles (.probeSuccess :: rest) = 1) ∧
    (∀ (log : String) (rest : List PollOutcome) (c : Int),
        pollLoop log (.exited c :: rest) = .failed c log ∧
        pollCycles (.exited c :: rest) = 1) ∧
    (∀ (log : String) (rest : List PollOutcome),
        pollLoop log (.probeFail :: rest) = pollLoop log rest ∧
        pollCycles (.probeFail :: rest) = pollCycles rest + 1) ∧
    (∀ (mi : ModelInfo) (env : LaunchEnv), env.spawnOk = true →
        (pollLoop env.log (launchPolls env) = .ready →
          (startModelServer mi env).info.status = "ready") ∧
        (∀ (c : Int) (lg : String),
          pollLoop env.log (launchPolls env) = .failed c lg →
          (startModelServer mi env).info.status = "failed" ∧
            lg = env.log)) := by
  refine ⟨fun log rest => ⟨rfl, rfl⟩, fun log rest c => ⟨rfl, rfl⟩,
    fun log rest => ⟨rfl, rfl⟩, fun mi env hs => ⟨?_, ?_⟩⟩
  · intro h
    simp [startModelServer, hs, h]
  · intro c lg h
    exact ⟨by simp [startModelServer, hs, h],
      pollLoop_failed_log env.log (launchPolls env) c lg h⟩

/-- Witness for C4 at concrete inputs: a first-cycle probe success, and
the crashed launch `envExit`, whose record ends `"failed"` with the
diagnostic log equal to the captured log content. -/
theorem c4_poll_cycle_trichotomy_witness :
    pollLoop "boot log" [.probeSuccess] = .ready ∧
    (startModelServer miEx envExit).info.status = "failed" ∧
    "crash log" = envExit.log :=
  ⟨(c4_poll_cycle_trichotomy.1 "boot log" []).1,
   ((c4_poll_cycle_trichotomy.2.2.2 miEx envExit rfl).2 1 "crash log"
     (by decide)).1,
   ((c4_poll_cycle_trichotomy.2.2.2 miEx envExit rfl).2 1 "crash log"
     (by decide)).2⟩

theorem step_ports (s : MState) (op : Op) :
    ∃ k, (step s op).next_port = s.next_port + k ∧
      (step s op).reserved = s.reserved ++ List.range' s.next_port k := by
  cases op with
  | addModel a q bg env =>
    show ∃ k, (add_model s a q bg env).2.next_port = _ ∧
      (add_model s a q bg env).2.reserved = _
    unfold add_model
    split
    · exact ⟨0, by simp, by simp⟩
    · cases hport : a.port with
      | some p =>
        simp only [hport]
        split
        · exact ⟨0, by simp, by simp⟩
        · cases bg with
          | true =>
            exact ⟨0, by simp [insertRecord], by simp [insertRecord]⟩
          | false =>
            exact ⟨0, by simp [insertRecord, syncLaunch],
              by simp [insertRecord, syncLaunch]⟩
      | none =>
        simp only [hport]
        split
        · exact ⟨1, by simp [getNextPort], by simp [getNextPort]⟩
        · cases bg with
          | true =>
            exact ⟨1, by simp [insertRecord, getNextPort],
              by simp [insertRecord, getNextPort]⟩
          | false =>
            exact ⟨1, by simp [insertRecord, syncLaunch, getNextPort],
              by simp [insertRecord, syncLaunch, getNextPort]⟩
  | runLaunch n env =>
    show ∃ k, (run_launch s n env).next_port = _ ∧
      (run_launch s n env).reserved = _
    unfold run_launch
    split
    · split
      · exact ⟨0, by simp, by simp⟩
      · exact ⟨0, by simp [syncLaunch], by simp [syncLaunch]⟩
    · exact ⟨0, by simp, by simp⟩
  | addFromConfig cfg env =>
    show ∃ k, (add_model_from_config s cfg env).2.next_port = _ ∧
      (add_model_from_config s cfg env).2.reserved = _
    unfold add_model_from_config
    split
    · exact ⟨0, by simp, by simp⟩
    · split
      · exact ⟨0, by simp, by simp⟩
      · refine ⟨2, by simp [insertRecord, syncLaunch, getNextPort], ?_⟩
        simp [insertRecord, syncLaunch, getNextPort, List.range']
  | remove k tenv =>
    show ∃ j, (remove_model s k tenv).2.next_port = _ ∧
      (remove_model s k tenv).2.reserved = _
    unfold remove_model
    split
    · exact ⟨0, by simp, by simp⟩
    · exact ⟨0, by simp, by simp⟩

theorem runOps_ports_of (s : MState) (base : Nat) (ops : List Op)
    (h1 : s.reserved = List.range' base (s.next_port - base))
    (h2 : base ≤ s.next_port) :
    (runOps s ops).reserved =
      List.range' base ((runOps s ops).next_port - base) ∧
    base ≤ (runOps s ops).next_port := by
  induction ops generalizing s with
  | nil => exact ⟨h1, h2⟩
  | cons op rest ih =>
    obtain ⟨k, hk1, hk2⟩ := step_ports s op
    refine ih (step s op) ?_ (by omega)
    rw [hk2, hk1, h1]
    rw [show s.next_port = base + (s.next_port - base) by omega]
    simp only [Nat.add_assoc, Nat.add_sub_cancel_left]
    rw [List.range'_append_1]
    congr 1
    omega

/-- C7: over every sequence of register, launch and remove operations,
the values handed out by `_get_next_port` form exactly the interval
starting at the configured base — strictly increasing, all at least the
base, and never repeating within the manager's lifetime, also after
records are removed (removal never decrements `next_port`). -/
theorem c7_ports_never_reused (base : Nat) (ops : List Op) :
    ((runOps (initState base) ops).reserved).Pairwise (· < ·) ∧
    (∀ p ∈ (runOps (initState base) ops).reserved, base ≤ p) ∧
    ((runOps (initState base) ops).reserved).Nodup := by
  obtain ⟨h1, _⟩ :=
    runOps_ports_of (initState base) base ops (by simp [initState]) le_rfl
  rw [h1]
  refine ⟨List.pairwise_lt_range' _ _, ?_, List.nodup_range' _ _⟩
  intro p hp
  exact (List.mem_range'_1.1 hp).1

/-- C8: removing (or terminating) an identity that `get_model` cannot
resolve raises `KeyError` before any `os.kill` and before any registry
mutation: the caller gets the not-found error (404 at the HTTP layer) and
the manager state — registry and ghost signal log included — is returned
exactly as it was. -/
theorem c8_remove_unknown_not_found (s : MState) (key : String)
    (tenv : TermEnv) (h : getModelInfo s key = none) :
    remove_model s key tenv =
      (.error ("Model " ++ key ++ " not found"), s) ∧
    (removeModelEndpoint s key tenv).1 =
      .error (404, "Model " ++ key ++ " not found") ∧
    (removeModelEndpoint s key tenv).2 = s := by
  have h1 : remove_model s key tenv =
      (.error ("Model " ++ key ++ " not found"), s) := by
    unfold remove_model
    rw [h]
  refine ⟨h1, ?_, ?_⟩ <;> (unfold removeModelEndpoint; rw [h1])

/-- Witness for C8: an identity absent from a fresh registry. -/
theorem c8_remove_unknown_not_found_witness :
    getModelInfo (initState 8000) "ghost" = none ∧
    remove_model (initState 8000) "ghost" ⟨false, none⟩ =
      (.error ("Model " ++ "ghost" ++ " not found"), initState 8000) :=
  ⟨rfl,
   (c8_remove_unknown_not_found (initState 8000) "ghost" ⟨false, none⟩
     rfl).1⟩

/-- C5 counterexample: a backend failure response whose content type is
not exactly `application/json` is NOT passed through unchanged — the
proxy wraps its text in `{"error": <text>}` (here a 502 `text/plain`
body `"oops"`); and on the streaming path a connection error is not
mapped to a 503 service-unavailable response at all: the original
network error is raised while the response streams. -/
theorem c5_counterexample :
    proxy_request false (.response 502 "text/plain" .null "oops" []) =
      .jsonResponse 502 (.obj [("error", .str "oops")]) ∧
    Jval.obj [("error", Jval.str "oops")] ≠
      backendBodyVal "text/plain" .null "oops" ∧
    proxy_request true (.connectionError "Connection refused") =
      .streaming (.raiseRequestError "Connection refused") := by
  refine ⟨rfl, ?_, rfl⟩
  rw [show backendBodyVal "text/plain" .null "oops" = .str "oops" by
    simp [backendBodyVal]]
  exact fun h => Jval.noConfusion h

/-- C5 amended: on the buffered path, a non-success backend status is
re-emitted with the same status code, with the body unchanged exactly when
the backend declares content type `application/json` and wrapped in an
error object otherwise; a connection failure yields 503 with an error
object (not the network error) and any other failure yields 500,
distinguishable from both.  On the streaming path this mapping does not
apply: the `StreamingResponse` is returned first and failures are raised
to the caller mid-stream as the original exceptions. -/
theorem c5_proxy_error_mapping :
    (∀ (st : Nat) (ct : String) (bj : Jval) (bt : String)
        (cs : List String), ¬ isSuccess st →
        proxy_request false (.response st ct bj bt cs) =
          .jsonResponse st
            (if ct = "application/json" then bj
             else .obj [("error", .str bt)])) ∧
    (∀ m, proxy_request false (.connectionError m) =
        .jsonResponse 503
          (.obj [("error", .str ("Model server unavailable: " ++ m))])) ∧
    (∀ m, proxy_request false (.otherError m) =
        .jsonResponse 500
          (.obj [("error", .str ("Internal server error: " ++ m))])) ∧
    (∀ m, proxy_request true (.connectionError m) =
        .streaming (.raiseRequestError m)) ∧
    (∀ (st : Nat) (ct : String) (bj : Jval) (bt : String)
        (cs : List String), ¬ isSuccess st →
        proxy_request true (.response st ct bj bt cs) =
          .streaming (.raiseStatus st)) := by
  refine ⟨?_, fun m => rfl, fun m => rfl, fun m => rfl, ?_⟩
  · intro st ct bj bt cs h
    simp [proxy_request, h]
  · intro st ct bj bt cs h
    simp [proxy_request, h]

/-- Witness for the amended C5: a 404 JSON body is re-emitted unchanged;
a streaming 500 raises the status error mid-stream. -/
theorem c5_proxy_error_mapping_witness :
    proxy_request false (.response 404 "application/json" (.obj []) "x" [])
      = .jsonResponse 404 (.obj []) ∧
    proxy_request true (.response 500 "text/plain" .null "y" []) =
      .streaming (.raiseStatus 500) := by
  constructor
  · rw [c5_proxy_error_mapping.1 404 "application/json" (.obj []) "x" []
      (by decide)]
    simp
  · exact c5_proxy_error_mapping.2.2.2.2 500 "text/plain" .null "y" []
      (by decide)

/-- C9: the outbound header dict built by the proxy contains only the
whitelisted `Content-Type` and `Authorization` keys, each present exactly
when the inbound request carries it (case-insensitively) and then bound to
the inbound value; every other inbound header is omitted. -/
theorem c9_header_whitelist :
    (∀ (hs : List (String × String)) (k v : String),
        (k, v) ∈ forwardHeaders hs →
        (k = "Content-Type" ∨ k = "Authorization") ∧
          headerLookup hs k = some v) ∧
    (∀ (hs : List (String × String)) (v : String),
        headerLookup hs "Content-Type" = some v →
        ("Content-Type", v) ∈ forwardHeaders hs) ∧
    (∀ (hs : List (String × String)) (v : String),
        headerLookup hs "Authorization" = some v →
        ("Authorization", v) ∈ forwardHeaders hs) := by
  refine ⟨?_, ?_, ?_⟩
  · intro hs k v hmem
    unfold forwardHeaders at hmem
    rcases hct : headerLookup hs "Content-Type" with _ | vc
    · rcases hau : headerLookup hs "Authorization" with _ | va
      · rw [hct, hau] at hmem
        simp at hmem
      · rw [hct, hau] at hmem
        simp at hmem
        obtain ⟨rfl, rfl⟩ := hmem
        exact ⟨.inr rfl, hau⟩
    · rcases hau : headerLookup hs "Authorization" with _ | va
      · rw [hct, hau] at hmem
        simp at hmem
        obtain ⟨rfl, rfl⟩ := hmem
        exact ⟨.inl rfl, hct⟩
      · rw [hct, hau] at hmem
        simp at hmem
        rcases hmem with ⟨rfl, rfl⟩ | ⟨rfl, rfl⟩
        · exact ⟨.inl rfl, hct⟩
        · exact ⟨.inr rfl, hau⟩
  · intro hs v h
    unfold forwardHeaders
    rw [h]
    rcases headerLookup hs "Authorization" with _ | va <;> simp
  · intro hs v h
    unfold forwardHeaders
    rw [h]
    rcases headerLookup hs "Content-Type" with _ | vc <;> simp

/-- Witness for C9: a lower-cased inbound content-type header is
forwarded under the whitelisted name; the other header is dropped. -/
theorem c9_header_whitelist_witness :
    ("Content-Type", "application/json") ∈
      forwardHeaders
        [("content-type", "application/json"), ("X-Api-Key", "secret")] :=
  c9_header_whitelist.2.1
    [("content-type", "application/json"), ("X-Api-Key", "secret")]
    "application/json" (by decide)

/-- C6: for both inference routes — a key that `get_model` cannot resolve
yields an `HTTPException` 404 with no outbound network call; a key that
resolves to a record whose status is not `"ready"` yields the retryable
503 not-ready error with no outbound network call; only a `"ready"` record
has the payload forwarded to its backend (exactly one outbound call). -/
theorem c6_route_guards :
    (∀ (s : MState) (key : String) (stream : Bool) (be : BackendOutcome)
        (hs : List (String × String)), key.isEmpty = false →
        getModelInfo s key = none →
        chat_completions s (some key) stream be hs =
          (.httpError 404 ("Model " ++ key ++ " not found"), 0) ∧
        completions s (some key) stream be hs =
          (.httpError 404 ("Model " ++ key ++ " not found"), 0)) ∧
    (∀ (s : MState) (key : String) (stream : Bool) (be : BackendOutcome)
        (hs : List (String × String)) (mi : ModelInfo),
        key.isEmpty = false → getModelInfo s key = some mi →
        mi.status ≠ "ready" →
        chat_completions s (some key) stream be hs =
          (.httpError 503 ("Model " ++ key ++ " is not ready (status: " ++
            mi.status ++ ")"), 0) ∧
        completions s (some key) stream be hs =
          (.httpError 503 ("Model " ++ key ++ " is not ready (status: " ++
            mi.status ++ ")"), 0)) ∧
    (∀ (s : MState) (key : String) (stream : Bool) (be : BackendOutcome)
        (hs : List (String × String)) (mi : ModelInfo),
        key.isEmpty = false → getModelInfo s key = some mi →
        mi.status = "ready" →
        chat_completions s (some key) stream be hs =
          (.proxiedTo mi.url "chat/completions" (forwardHeaders hs)
            (proxy_request stream be), 1) ∧
        completions s (some key) stream be hs =
          (.proxiedTo mi.url "completions" (forwardHeaders hs)
            (proxy_request stream be), 1)) := by
  refine ⟨?_, ?_, ?_⟩
  · intro s key stream be hs hk hl
    constructor <;>
      simp [chat_completions, completions, handleInference,
        modelKeyMissing, hk, hl]
  · intro s key stream be hs mi hk hl hst
    constructor <;>
      (simp [chat_completions, completions, handleInference,
        modelKeyMissing, hk, hl]
       exact hst)
  · intro s key stream be hs mi hk hl hst
    constructor <;>
      (simp [chat_completions, completions, handleInference,
        modelKeyMissing, hk, hl]
       exact hst)

/-- Witness for C6 at concrete inputs: unknown key → 404; a `starting`
record → 503; a `ready` record → forwarded. -/
theorem c6_route_guards_witness :
    chat_completions (initState 8000) (some "nope") false
      (.connectionError "x") [] =
      (.httpError 404 ("Model " ++ "nope" ++ " not found"), 0) ∧
    chat_completions c6sStarting (some "org/modelA") true
      (.connectionError "x") [] =
      (.httpError 503 ("Model " ++ "org/modelA" ++ " is not ready (status: "
        ++ miStarting.status ++ ")"), 0) ∧
    completions c3s1 (some "org/modelA") false (.connectionError "x") [] =
      (.proxiedTo miReady.url "completions" (forwardHeaders [])
        (proxy_request false (.connectionError "x")), 1) :=
  ⟨(c6_route_guards.1 (initState 8000) "nope" false (.connectionError "x")
      [] rfl rfl).1,
   (c6_route_guards.2.1 c6sStarting "org/modelA" true (.connectionError "x")
      [] miStarting rfl (by decide) (by decide)).1,
   (c6_route_guards.2.2 c3s1 "org/modelA" false (.connectionError "x")
      [] miReady rfl (by decide) rfl).2⟩

theorem startModelServer_preserves (mi : ModelInfo) (env : LaunchEnv) :
    (startModelServer mi env).info.port = mi.port ∧
    (startModelServer mi env).info.url = mi.url := by
  unfold startModelServer
  split
  · split <;> exact ⟨rfl, rfl⟩
  · exact ⟨rfl, rfl⟩

theorem lookup_objSet_append (l : List (Nat × ModelInfo)) (n : Nat)
    (mi mi' : ModelInfo) (hfresh : ∀ q ∈ l, q.1 ≠ n) :
    (objSet (l ++ [(n, mi)]) n mi').lookup n = some mi' := by
  induction l with
  | nil =>
    rw [show objSet ([] ++ [(n, mi)]) n mi' = [(n, mi')] by simp [objSet]]
    exact List.lookup_cons_self
  | cons q t ih =>
    have hq : q.1 ≠ n := hfresh q (List.mem_cons_self q t)
    rw [show objSet ((q :: t) ++ [(n, mi)]) n mi' =
        q :: objSet (t ++ [(n, mi)]) n mi' by simp [objSet, hq]]
    rcases q with ⟨qk, qv⟩
    rw [List.lookup_cons,
      show (n == qk) = false by
        simp only [beq_eq_false_iff_ne]
        exact fun e => hq e.symm]
    exact ih (fun p hp => hfresh p (List.mem_cons_of_mem _ hp))

/-- C10: when the config descriptor carries no explicit `"port"`,
`add_model_from_config` draws the allocator twice (the manager's
`next_port` advances by 2) and the record it creates has `port` equal to
the first draw while its `url` names the second draw — one greater than
its own `port` field; the record's `url` agrees with its `port` field
exactly in the explicit-port case. -/
theorem c10_config_double_draw (s : MState) (cfg : ModelConfigFile)
    (env : LaunchEnv) (id : String) (hid : cfg.model_id = some id)
    (hne : id.isEmpty = false)
    (hfresh : ∀ q ∈ s.objs, q.1 ≠ s.nextSerial) :
    ∃ mi, (add_model_from_config s cfg env).2.objs.lookup s.nextSerial =
        some mi ∧
      mi.port = cfg.port.getD s.next_port ∧
      mi.url = mkUrl (cfg.port.getD (s.next_port + 1)) ∧
      (add_model_from_config s cfg env).2.next_port = s.next_port + 2 ∧
      (cfg.port = none → mi.url = mkUrl (mi.port + 1)) ∧
      (∀ p, cfg.port = some p → mi.port = p ∧ mi.url = mkUrl p) := by
  unfold add_model_from_config
  simp only [hid]
  rw [if_neg (by simp [hne])]
  simp only [insertRecord, syncLaunch, getNextPort]
  rw [lookup_objSet_append _ _ _ _ hfresh]
  refine ⟨_, rfl, ?_, ?_, ?_, ?_, ?_⟩
  · rw [(startModelServer_preserves _ env).1]
  · rw [(startModelServer_preserves _ env).2]
  · trivial
  · intro hp
    rw [(startModelServer_preserves _ env).1,
      (startModelServer_preserves _ env).2, hp]
    rfl
  · intro p hp
    constructor
    · rw [(startModelServer_preserves _ env).1, hp]
      rfl
    · rw [(startModelServer_preserves _ env).2, hp]
      rfl

/-- Witness for C10: on a fresh manager, `cfgA` (no port) yields a record
with port 8000 but URL naming 8001, the allocator advanced by 2, and the
URL disagreeing with the port field; `cfgP` (explicit port 9100) yields a
record whose URL and port agree. -/
theorem c10_config_double_draw_witness :
    (∃ mi, (add_model_from_config (initState 8000) cfgA envOk).2.objs.lookup
        0 = some mi ∧
      mi.port = cfgA.port.getD 8000 ∧
      mi.url = mkUrl (cfgA.port.getD 8001) ∧
      (add_model_from_config (initState 8000) cfgA envOk).2.next_port =
        8002 ∧
      (cfgA.port = none → mi.url = mkUrl (mi.port + 1)) ∧
      (∀ p, cfgA.port = some p → mi.port = p ∧ mi.url = mkUrl p)) ∧
    (∃ mi, (add_model_from_config (initState 8000) cfgP envOk).2.objs.lookup
        0 = some mi ∧
      mi.port = cfgP.port.getD 8000 ∧
      mi.url = mkUrl (cfgP.port.getD 8001) ∧
      (add_model_from_config (initState 8000) cfgP envOk).2.next_port =
        8002 ∧
      (cfgP.port = none → mi.url = mkUrl (mi.port + 1)) ∧
      (∀ p, cfgP.port = some p → mi.port = p ∧ mi.url = mkUrl p)) :=
  ⟨c10_config_double_draw (initState 8000) cfgA envOk "org/modelA" rfl rfl
    (by simp [initState]),
   c10_config_double_draw (initState 8000) cfgP envOk "org/modelB" rfl rfl
    (by simp [initState])⟩

end SwiftModelServer
